import Mathlib

/-!
Shallow embedding of the `node-ad-tools` Active Directory connector
(`ActiveDirectory` class, async/await revision) and proofs about it.

JS strings are modelled as Lean `String`, with the character-level
operations the source uses (`split` with one- and three-character
separators, `indexOf`-based substring containment) defined on `List Char`.
JS `undefined`-able values are `Option`; thrown JS errors are `Except`.
-/

namespace NodeAdTools

/-! ### Character-list operations modelling JS string methods -/

/-- Helper: prepend a character onto the first piece of a split result
(the way a left-fold split accumulates the current piece). -/
def consHead (c : Char) : List (List Char) → List (List Char)
  | [] => [[c]]
  | p :: ps => (c :: p) :: ps

/-- JS `str.split(sep)` for a single-character separator `sep`. -/
def splitOnChar (sep : Char) : List Char → List (List Char)
  | [] => [[]]
  | c :: rest =>
    if c = sep then [] :: splitOnChar sep rest
    else consHead c (splitOnChar sep rest)

/-- JS `str.indexOf(t) !== -1` (substring containment) for a
three-character search string `a b c`. -/
def containsSeq3 (a b c : Char) : List Char → Bool
  | x :: y :: z :: rest =>
    (decide (x = a) && decide (y = b) && decide (z = c)) || containsSeq3 a b c (y :: z :: rest)
  | _ => false

/-- JS `str.split(t)` for a three-character separator `a b c`,
scanning left to right, non-overlapping. -/
def splitOnSeq3 (a b c : Char) : List Char → List (List Char)
  | [] => [[]]
  | [x] => [[x]]
  | [x, y] => [[x, y]]
  | x :: y :: z :: rest =>
    if x = a ∧ y = b ∧ z = c then [] :: splitOnSeq3 a b c rest
    else consHead x (splitOnSeq3 a b c (y :: z :: rest))

/-- JS `item.indexOf('CN=') !== -1`. -/
def containsCN (l : List Char) : Bool := containsSeq3 'C' 'N' '=' l

/-- JS `item.split('CN=')`. -/
def splitOnCN (l : List Char) : List (List Char) := splitOnSeq3 'C' 'N' '=' l

/-- JS `msg.indexOf('775') !== -1`. -/
def contains775 (l : List Char) : Bool := containsSeq3 '7' '7' '5' l

/-- JS `username.toUpperCase().indexOf('DC=') !== -1` (after upcasing). -/
def containsDCeq (l : List Char) : Bool := containsSeq3 'D' 'C' '=' l

/-! ### JS error values

A JS `Error` as far as this library inspects it: its `name`, its
`message`, and the ldapjs diagnostic field `lde_message` (absent on
ordinary errors). -/

structure JSError where
  name : String
  message : String
  lde_message : Option String
deriving DecidableEq, Repr

/-- JS truthiness of `error.lde_message`: `undefined` and the empty
string are falsy. -/
def jsFalsyStr : Option String → Bool
  | none => true
  | some s => s.isEmpty

/-- `ActiveDirectory.resolveBindError` (source lines 397-405). -/
def resolveBindError (error : JSError) : String :=
  if error.name ≠ "InvalidCredentialsError" ∨ jsFalsyStr error.lde_message then
    "Unknown Auth Error"
  else if contains775 ((error.lde_message.getD "").data) then
    "Account is locked out"
  else
    "Invalid username or password"

/-! ### Raw directory records (ldapjs search entries) -/

/-- The JS value found at `entry.object.memberOf`. ldapjs returns a
string for a single membership, an array for several; `other` stands
for any further JS shape (number, object, null, ...). -/
inductive MemberOfVal where
  | undef
  | str (s : String)
  | arr (l : List String)
  | other
deriving DecidableEq, Repr

/-- The `object` mapping of an ldapjs entry, restricted to the fields
the library reads. A field holds `none` when the JS property is absent
(`undefined`). -/
structure EntryObject where
  memberOf : MemberOfVal
  name : Option String
  telephoneNumber : Option String
  mail : Option String
  dn : Option String
  description : Option String
  whenCreated : Option String
  whenChanged : Option String
deriving DecidableEq, Repr

/-- One element of `entry.attributes`: a `type` and the raw byte
buffers. Buffer bytes are naturals (a Node `Buffer` read yields 0-255). -/
structure LdapAttribute where
  type : String
  buffers : List (List Nat)
deriving DecidableEq, Repr

/-- An ldapjs search entry. `object` is `none` when `entry.object` is
not an object, `attributes` is `none` when `entry.attributes` is not an
array. -/
structure Entry where
  object : Option EntryObject
  attributes : Option (List LdapAttribute)
  objectName : Option String
deriving DecidableEq, Repr

/-- `ActiveDirectory.resolveGroups` (source lines 412-430).

Output positions are `Option String` because the JS array branch writes
`group.split(',')[0].split('CN=')[1]`, which is `undefined` when the
leading component has no `CN=`. -/
def resolveGroups (entry : Entry) : Except JSError (List (Option String)) :=
  match entry.object with
  | none => .error ⟨"Error", "Invalid entry, entry.object must be an object", none⟩
  | some obj =>
    match obj.memberOf with
    | .undef => .ok []
    | .str s =>
      .ok (((splitOnChar ',' s.data).filter (fun item => containsCN item)).map
        (fun item => ((splitOnCN item).get? 1).map String.mk))
    | .arr groups =>
      .ok (groups.map (fun group =>
        ((splitOnCN ((splitOnChar ',' group.data).headD [])).get? 1).map String.mk))
    | .other => .ok []

/-! ### GUID decoding -/

/-- The fixed index permutation groups of `resolveGUID`
(source lines 442-448). -/
def guidFormat : List (List Nat) := [[3, 2, 1, 0], [5, 4], [7, 6], [8, 9], [10, 11, 12, 13, 14, 15]]

/-- JS `n.toString(16)` for a natural number (lowercase hex digits). -/
def jsToString16 (n : Nat) : String := String.mk (Nat.toDigits 16 n)

/-- The per-byte formatting of `resolveGUID`: left-pad with `0` when the
byte is below 16 (source lines 451-457). -/
def formatGUIDByte (b : Nat) : String :=
  if b < 16 then "0" ++ jsToString16 b else jsToString16 b

/-- `ActiveDirectory.resolveGUID` (source lines 437-462).

Reading `binaryGUID[byte]` out of bounds yields JS `undefined`;
`undefined < 16` is false, so `undefined.toString(16)` throws — hence
the error on a missing index. -/
def resolveGUID (entry : Entry) : Except JSError String :=
  match entry.attributes with
  | none => .error ⟨"Error", "Attributes must be an array", none⟩
  | some attrs =>
    match attrs.find? (fun a => a.type == "objectGUID") with
    | none => .error ⟨"TypeError", "Cannot read properties of undefined (reading buffers)", none⟩
    | some attr =>
      match attr.buffers.head? with
      | none => .error ⟨"TypeError", "Cannot read properties of undefined", none⟩
      | some binaryGUID => do
        let guidArray ← guidFormat.mapM (fun part => do
          let stringPart ← part.mapM (fun byte =>
            match binaryGUID.get? byte with
            | none => Except.error (⟨"TypeError", "Cannot read properties of undefined (reading toString)", none⟩ : JSError)
            | some b => Except.ok (formatGUIDByte b))
          Except.ok (String.join stringPart))
        Except.ok (String.intercalate "-" guidArray)

/-! ### Remaining pure decoders -/

/-- `ActiveDirectory.detectLogonType` (source lines 488-496). -/
def detectLogonType (username : String) : String :=
  if username.contains '@' then "userPrincipalName"
  else if containsDCeq username.toUpper.data then "distinguishedName"
  else "sAMAccountName"

/-- `ActiveDirectory.cleanSama` (source lines 520-523). -/
def cleanSama (sAMA : String) : String :=
  String.mk ((splitOnChar '\\' sAMA.data).getLastD [])

/-- `ActiveDirectory.convertToDate` (source lines 504-513), modelled up
to the string handed to the JS `Date` constructor. -/
def convertToDate (date : String) : String :=
  let year := date.data.take 4
  let month := (date.data.drop 4).take 2
  let day := (date.data.drop 6).take 2
  let hour := (date.data.drop 8).take 2
  let min := (date.data.drop 10).take 2
  let sec := (date.data.drop 12).take 2
  String.mk (year ++ '-' :: month ++ '-' :: day ++ 'T' :: hour ++ ':' :: min ++ ':' :: sec) ++ ".000Z"

/-- The normalized user object built by `createUserObj`. -/
structure UserObj where
  groups : List (Option String)
  phone : String
  name : String
  mail : String
  guid : String
  dn : Option String
deriving DecidableEq, Repr

/-- `ActiveDirectory.createUserObj` (source lines 469-481). The object
literal evaluates `resolveGroups` first, so a missing `object` mapping
errors there; the `x || ''` defaults become `Option.getD ""`. -/
def createUserObj (entry : Entry) : Except JSError UserObj := do
  let groups ← resolveGroups entry
  match entry.object with
  | none => Except.error ⟨"TypeError", "Cannot read properties of undefined", none⟩
  | some obj => do
    let guid ← resolveGUID entry
    Except.ok ⟨groups, obj.telephoneNumber.getD "", obj.name.getD "", obj.mail.getD "",
      guid, entry.objectName⟩

/-! ### Search options and configuration

The ldapjs search-options object, restricted to the keys this library
ever writes or the spec names. Each field is `Option`al: `none` models
the key being absent from the JS object. -/

/-- JS `attributes` value: ldapjs accepts a single string or an array. -/
inductive AttrSel where
  | one (s : String)
  | many (l : List String)
deriving DecidableEq, Repr

structure SearchOptions where
  scope : Option String
  filter : Option String
  sizeLimit : Option Nat
  attributes : Option AttrSel
deriving DecidableEq, Repr

/-- The search-options object with no keys (also stands for spreading
JS `undefined`, which contributes nothing). -/
def SearchOptions.empty : SearchOptions := ⟨none, none, none, none⟩

/-- JS object spread `\x7b...a, ...b\x7d` on the fixed key universe:
a key of `b`, when present, wins over the same key of `a`. -/
def SearchOptions.spread (a b : SearchOptions) : SearchOptions :=
  ⟨b.scope <|> a.scope, b.filter <|> a.filter,
   b.sizeLimit <|> a.sizeLimit, b.attributes <|> a.attributes⟩

/-- Overwrite just the `filter` key (the object-literal position
`filter: ...` between the two spreads). -/
def SearchOptions.withFilter (a : SearchOptions) (f : String) : SearchOptions :=
  ⟨a.scope, some f, a.sizeLimit, a.attributes⟩

/-- Overwrite the `filter` and `attributes` keys (`getAllGroups`'s
object literal). -/
def SearchOptions.withFilterAttrs (a : SearchOptions) (f : String) (ats : AttrSel) : SearchOptions :=
  ⟨a.scope, some f, a.sizeLimit, some ats⟩

/-- The construction-time configuration an `ActiveDirectory` instance
holds (url/idleTimeout/tlsOptions are opaque to every claim and not
modelled beyond their existence in `ldapjsSettings`). -/
structure ADConfig where
  base : String
  searchOptions : SearchOptions
deriving DecidableEq, Repr

/-! ### JS argument values and the LDAP world -/

/-- A JS value passed for the `customBase` / `detailed` / `formatted`
parameters: `undefined`, a boolean, or a string. -/
inductive JSArg where
  | undef
  | boolV (b : Bool)
  | strV (s : String)
deriving DecidableEq, Repr

/-- JS truthiness of a `JSArg`. -/
def jsTruthy : JSArg → Bool
  | .undef => false
  | .boolV b => b
  | .strV s => !s.isEmpty

/-- A credential argument: a JS string, or any non-string JS value
(modelled uniformly as a value without string methods). -/
inductive Cred where
  | str (s : String)
  | nonString
deriving DecidableEq, Repr

/-- The directory's behaviour for one operation: the outcome the
client reports for the bind, and, after a successful bind, either an
error event or the entries streamed before the end event. -/
structure LdapWorld where
  bindError : Option JSError
  searchOutcome : Except JSError (List Entry)
deriving Repr

/-- Observable calls the orchestration makes on the ldapjs client. -/
inductive ClientAction where
  | bindCall
  | searchCall (base : String) (opts : SearchOptions)
  | unbindCall
deriving DecidableEq, Repr

/-- The value a public operation's promise settles with: the returned
result object, or (were it ever to happen) an error raised past the
operation's boundary. -/
inductive Outcome (α : Type) where
  | returned (v : α)
  | raised (e : JSError)
deriving DecidableEq, Repr

/-- The error `_bind` throws for non-string credentials
(source lines 534-539): name and `lde_message` are set so that
`resolveBindError` classifies it. -/
def credTypeError : JSError :=
  ⟨"InvalidCredentialsError", "Usrname and password must be a string",
   some "Usrname and password must be a string"⟩

/-- The `TypeError` raised when a string method is called on a
non-string `username` (inside `detectLogonType`). -/
def typeErrorNoMethod : JSError :=
  ⟨"TypeError", "username.indexOf is not a function", none⟩

/-- `_search`'s base computation (source line 561): a non-empty string
`customBase` wins, anything else falls back to the configured base
(`typeof customBase === 'string' && customBase ? customBase : this.base`). -/
def searchBase (ad : ADConfig) (customBase : JSArg) : String :=
  match customBase with
  | .strV s => if s.isEmpty then ad.base else s
  | _ => ad.base

/-! ### loginUser -/

/-- The default filter `loginUser` builds (source line 604). -/
def defaultLoginFilter (usernameType searchUser : String) : String :=
  "(" ++ usernameType ++ "=" ++ searchUser ++ ")"

/-- The search object `loginUser` builds (source lines 602-606):
`\x7b...this.searchOptions, filter: default, ...customSearch\x7d`. -/
def loginUserSearch (ad : ADConfig) (usernameType searchUser : String)
    (customSearch : SearchOptions) : SearchOptions :=
  SearchOptions.spread
    (ad.searchOptions.withFilter (defaultLoginFilter usernameType searchUser))
    customSearch

/-- Result object of `loginUser`: `\x7bsuccess: true, entry: records[0]\x7d`
(the entry is `undefined` when the search matched nothing) or
`\x7bsuccess: false, message, error\x7d`. -/
inductive LoginValue where
  | success (entry : Option Entry)
  | failure (message : String) (error : JSError)
deriving DecidableEq, Repr

/-- `ActiveDirectory.loginUser` (source lines 597-625), as a function of
the directory's behaviour `w`, returning the settled outcome together
with the trace of client calls the operation performed.

Control flow of the source: everything happens inside one
`try/catch`; a non-string `username` makes `detectLogonType` throw a
`TypeError` before `client.bind`, a non-string `password` makes
`_bind`'s type check throw `credTypeError` before `client.bind`; a bind
error rejects `_bind`, a search error event rejects `_search`; every
thrown/rejected error is caught and turned into the failure object
`\x7bsuccess: false, message: resolveBindError(err), error: err\x7d`. No
code path calls `client.unbind` (only the client `error` event handler
does, and neither `_bind` nor `_search` emits that event). -/
def loginUser (ad : ADConfig) (username password : Cred) (customBase : JSArg)
    (customSearch : SearchOptions) (w : LdapWorld) :
    Outcome LoginValue × List ClientAction :=
  match username with
  | .nonString =>
    (.returned (.failure (resolveBindError typeErrorNoMethod) typeErrorNoMethod), [])
  | .str uname =>
    let usernameType := detectLogonType uname
    let searchUser := if usernameType = "sAMAccountName" then cleanSama uname else uname
    let search := loginUserSearch ad usernameType searchUser customSearch
    match password with
    | .nonString =>
      (.returned (.failure (resolveBindError credTypeError) credTypeError), [])
    | .str _ =>
      match w.bindError with
      | some e => (.returned (.failure (resolveBindError e) e), [.bindCall])
      | none =>
        match w.searchOutcome with
        | .error e =>
          (.returned (.failure (resolveBindError e) e),
           [.bindCall, .searchCall (searchBase ad customBase) search])
        | .ok records =>
          (.returned (.success (records.get? 0)),
           [.bindCall, .searchCall (searchBase ad customBase) search])

/-! ### getAllGroups -/

/-- The backwards-compatibility shim shared by `getAllGroups` and
`getAllUsers` (source lines 638-639 and 695-696):
`if (flag === undefined && typeof customBase === 'boolean') flag = customBase`. -/
def compatFlag (customBase flag : JSArg) : JSArg :=
  match flag, customBase with
  | .undef, .boolV b => .boolV b
  | f, _ => f

/-- The `attributes` selection of `getAllGroups` (source line 641). -/
def groupsAttributes (detailed : Bool) : AttrSel :=
  if detailed then .many ["name", "dn", "objectGUID", "description", "whenCreated", "whenChanged"]
  else .one "name"

/-- A detailed group record from `getAllGroups`'s `getDetails`
(source lines 661-672). -/
structure DetailedGroup where
  name : Option String
  dn : Option String
  guid : String
  description : Option String
  created : String
  changed : String
deriving DecidableEq, Repr

/-- `getDetails` (source lines 661-672): reading `entry.object.name` on
a missing `object` throws; `convertToDate(undefined)` throws when a
timestamp field is absent. -/
def getDetails (records : List Entry) : Except JSError (List DetailedGroup) :=
  records.mapM (fun entry =>
    match entry.object with
    | none => .error ⟨"TypeError", "Cannot read properties of undefined", none⟩
    | some obj => do
      let guid ← resolveGUID entry
      let created ← match obj.whenCreated with
        | none => Except.error (⟨"TypeError", "Cannot read properties of undefined (reading slice)", none⟩ : JSError)
        | some d => Except.ok (convertToDate d)
      let changed ← match obj.whenChanged with
        | none => Except.error (⟨"TypeError", "Cannot read properties of undefined (reading slice)", none⟩ : JSError)
        | some d => Except.ok (convertToDate d)
      Except.ok (⟨obj.name, obj.dn, guid, obj.description, created, changed⟩ : DetailedGroup))

/-- The plain-name projection `records.map(entry => entry.object.name)`
(source line 676); throws on a missing `object`. -/
def groupNames (records : List Entry) : Except JSError (List (Option String)) :=
  records.mapM (fun entry =>
    match entry.object with
    | none => .error ⟨"TypeError", "Cannot read properties of undefined", none⟩
    | some obj => .ok obj.name)

/-- The groups payload: plain names or detailed records. -/
inductive GroupsPayload where
  | names (l : List (Option String))
  | detailed (l : List DetailedGroup)
deriving DecidableEq, Repr

inductive GroupsValue where
  | success (groups : GroupsPayload)
  | failure (message : String) (error : JSError)
deriving DecidableEq, Repr

/-- `ActiveDirectory.getAllGroups` (source lines 635-682). Same
`try/catch` discipline as `loginUser`; the fixed filter is
`(objectCategory=group)` and `attributes` is overwritten by the object
literal. No code path calls `client.unbind`. -/
def getAllGroups (ad : ADConfig) (username password : Cred)
    (customBase detailedArg : JSArg) (w : LdapWorld) :
    Outcome GroupsValue × List ClientAction :=
  let detailed := compatFlag customBase detailedArg
  let customSearch := ad.searchOptions.withFilterAttrs "(objectCategory=group)"
    (groupsAttributes (jsTruthy detailed))
  match username, password with
  | .nonString, _ =>
    (.returned (.failure (resolveBindError credTypeError) credTypeError), [])
  | _, .nonString =>
    (.returned (.failure (resolveBindError credTypeError) credTypeError), [])
  | .str _, .str _ =>
    match w.bindError with
    | some e => (.returned (.failure (resolveBindError e) e), [.bindCall])
    | none =>
      let trace := [ClientAction.bindCall, .searchCall (searchBase ad customBase) customSearch]
      match w.searchOutcome with
      | .error e => (.returned (.failure (resolveBindError e) e), trace)
      | .ok records =>
        if jsTruthy detailed then
          match getDetails records with
          | .ok l => (.returned (.success (.detailed l)), trace)
          | .error e => (.returned (.failure (resolveBindError e) e), trace)
        else
          match groupNames records with
          | .ok l => (.returned (.success (.names l)), trace)
          | .error e => (.returned (.failure (resolveBindError e) e), trace)

/-! ### getAllUsers -/

/-- The users payload: raw entries, or normalized user objects when
`formatted` is truthy. -/
inductive UsersPayload where
  | raw (l : List Entry)
  | formatted (l : List UserObj)
deriving DecidableEq, Repr

inductive UsersValue where
  | success (users : UsersPayload)
  | failure (message : String) (error : JSError)
deriving DecidableEq, Repr

/-- The formatted-users projection
`records.map(entry => ActiveDirectory.createUserObj(entry))`
(source line 718); a throw on any record propagates. -/
def formatUsers (records : List Entry) : Except JSError (List UserObj) :=
  records.mapM createUserObj

/-- `ActiveDirectory.getAllUsers` (source lines 692-727). The fixed
filter is `(&(objectClass=user)(objectCategory=person))`; `attributes`
is whatever the configuration carries. A `createUserObj` throw on a
malformed record is caught by the same `catch`. No code path calls
`client.unbind`. -/
def getAllUsers (ad : ADConfig) (username password : Cred)
    (customBase formattedArg : JSArg) (w : LdapWorld) :
    Outcome UsersValue × List ClientAction :=
  let formatted := compatFlag customBase formattedArg
  let customSearch := ad.searchOptions.withFilter "(&(objectClass=user)(objectCategory=person))"
  match username, password with
  | .nonString, _ =>
    (.returned (.failure (resolveBindError credTypeError) credTypeError), [])
  | _, .nonString =>
    (.returned (.failure (resolveBindError credTypeError) credTypeError), [])
  | .str _, .str _ =>
    match w.bindError with
    | some e => (.returned (.failure (resolveBindError e) e), [.bindCall])
    | none =>
      let trace := [ClientAction.bindCall, .searchCall (searchBase ad customBase) customSearch]
      match w.searchOutcome with
      | .error e => (.returned (.failure (resolveBindError e) e), trace)
      | .ok records =>
        if jsTruthy formatted then
          match formatUsers records with
          | .ok l => (.returned (.success (.formatted l)), trace)
          | .error e => (.returned (.failure (resolveBindError e) e), trace)
        else
          (.returned (.success (.raw records)), trace)

/-! ### Spec-side definitions

These follow the specification's wording (not the source) and are
compared against the source-derived definitions in the claim theorems. -/

/-- Spec wording (§4.1): "strip the `CN=` prefix" from a component. -/
def specStripCN (l : List Char) : List Char :=
  if l.take 3 = ['C', 'N', '='] then l.drop 3 else l

/-- Spec wording for the scalar-string `memberOf` path: "split on
commas, keep only components containing `CN=`, strip the `CN=` prefix
from each". -/
def specGroupsOfString (s : String) : List String :=
  ((splitOnChar ',' s.data).filter (fun comp => containsCN comp)).map
    (fun comp => String.mk (specStripCN comp))

/-- Spec wording for the sequence `memberOf` path: "for each element,
take the text before the first comma, then strip `CN=`". -/
def specGroupsOfArray (groups : List String) : List String :=
  groups.map (fun g => String.mk (specStripCN ((splitOnChar ',' g.data).headD [])))

/-- A lowercase hex digit (0-15). -/
def hexDigitChar (n : Nat) : Char :=
  if n < 10 then Char.ofNat (48 + n) else Char.ofNat (87 + n)

/-- Spec wording (§4.1): a byte "hex-encoded (two digits, zero-padded)". -/
def specHexByte (b : Nat) : String :=
  String.mk [hexDigitChar (b / 16), hexDigitChar (b % 16)]

/-- Spec wording (§4.1): the 16 raw bytes reordered into the five fixed
index groups, each byte two-digit hex-encoded, groups concatenated and
joined with `-`. -/
def specFormatGUID (bytes : List Nat) : String :=
  String.intercalate "-" (guidFormat.map (fun part =>
    String.join (part.map (fun i => specHexByte (bytes.getD i 0)))))

/-! ### Helper lemmas -/

/-- `Except` result inspector (is the computation a success?). -/
def isOkE {ε α : Type} : Except ε α → Bool
  | .ok _ => true
  | .error _ => false

theorem containsSeq3_here (a b c : Char) (r : List Char) :
    containsSeq3 a b c (a :: b :: c :: r) = true := by
  simp [containsSeq3]

theorem splitOnSeq3_here (a b c : Char) (r : List Char) :
    splitOnSeq3 a b c (a :: b :: c :: r) = [] :: splitOnSeq3 a b c r := by
  simp [splitOnSeq3]

theorem splitOnSeq3_of_not_contains (a b c : Char) :
    ∀ l : List Char, containsSeq3 a b c l = false → splitOnSeq3 a b c l = [l] := by
  intro l
  induction l using splitOnSeq3.induct a b c with
  | case1 => intro _; rfl
  | case2 x => intro _; rfl
  | case3 x y => intro _; rfl
  | case4 x y z rest h ih =>
    obtain ⟨h1, h2, h3⟩ := h
    subst h1; subst h2; subst h3
    intro hc
    rw [containsSeq3_here] at hc
    exact absurd hc (by simp)
  | case5 x y z rest h ih =>
    intro hc
    have hc' : containsSeq3 a b c (y :: z :: rest) = false := by
      have := hc
      unfold containsSeq3 at this
      simp only [Bool.or_eq_false_iff] at this
      exact this.2
    rw [splitOnSeq3]
    rw [if_neg h, ih hc']
    rfl

theorem splitOnCN_of_not_contains (l : List Char) (h : containsCN l = false) :
    splitOnCN l = [l] :=
  splitOnSeq3_of_not_contains 'C' 'N' '=' l h

/-- A list whose first three characters are `CN=` decomposes accordingly. -/
theorem eq_cn_cons_of_take3 (l : List Char) (h : l.take 3 = ['C', 'N', '=']) :
    l = 'C' :: 'N' :: '=' :: l.drop 3 := by
  conv_lhs => rw [← List.take_append_drop 3 l]
  rw [h]
  rfl

/-- `mapM` over `Except` succeeds with the pointwise map when every
element succeeds. -/
theorem exceptMapM_ok_of_forall {α β ε : Type} (f : α → Except ε β) (g : α → β) :
    ∀ l : List α, (∀ x ∈ l, f x = .ok (g x)) → l.mapM f = .ok (l.map g) := by
  intro l h
  induction l with
  | nil => rfl
  | cons x t ih =>
    have hx : f x = .ok (g x) := h x (by simp)
    have ht := ih (fun y hy => h y (by simp [hy]))
    simp only [List.mapM_cons, hx, ht, List.map_cons]
    rfl

theorem except_bind_ok {α β ε : Type} (a : α) (f : α → Except ε β) :
    (Except.ok a >>= f) = f a := rfl

theorem except_bind_error {α β ε : Type} (e : ε) (f : α → Except ε β) :
    ((Except.error e : Except ε α) >>= f) = Except.error e := rfl

theorem except_pure_eq {α ε : Type} (a : α) : (pure a : Except ε α) = Except.ok a := rfl

theorem isOkE_ok {α ε : Type} (a : α) : isOkE (Except.ok a : Except ε α) = true := rfl

theorem isOkE_error {α ε : Type} (e : ε) : isOkE (Except.error e : Except ε α) = false := rfl

/-- `mapM` over `Except` succeeds exactly when every element succeeds. -/
theorem exceptMapM_isOk_iff {α β ε : Type} (f : α → Except ε β) :
    ∀ l : List α, isOkE (l.mapM f) = true ↔ ∀ x ∈ l, isOkE (f x) = true := by
  intro l
  induction l with
  | nil =>
    constructor
    · intro _ x hx; exact absurd hx (List.not_mem_nil x)
    · intro _; rfl
  | cons x t ih =>
    rw [List.mapM_cons]
    cases hfx : f x with
    | error e =>
      rw [except_bind_error]
      constructor
      · intro h; rw [isOkE_error] at h; exact absurd h (by simp)
      · intro h
        have hx := h x (by simp)
        rw [hfx, isOkE_error] at hx
        exact absurd hx (by simp)
    | ok b =>
      rw [except_bind_ok]
      cases hmt : t.mapM f with
      | error e =>
        rw [except_bind_error]
        constructor
        · intro h; rw [isOkE_error] at h; exact absurd h (by simp)
        · intro h
          have ht : isOkE (t.mapM f) = true :=
            ih.mpr (fun y hy => h y (List.mem_cons_of_mem _ hy))
          rw [hmt, isOkE_error] at ht
          exact absurd ht (by simp)
      | ok bs =>
        rw [except_bind_ok, except_pure_eq, isOkE_ok]
        constructor
        · intro _ y hy
          rcases List.mem_cons.mp hy with h | h
          · subst h; rw [hfx, isOkE_ok]
          · exact ih.mp (by rw [hmt, isOkE_ok]) y h
        · intro _; rfl

theorem isSome_get?_iff {α : Type} (l : List α) (i : Nat) :
    (l.get? i).isSome = true ↔ i < l.length := by
  rw [List.get?_eq_getElem?]
  constructor
  · intro h
    by_contra hlt
    rw [List.getElem?_eq_none (by omega)] at h
    exact absurd h (by simp)
  · intro h
    rw [List.getElem?_eq_getElem h]
    rfl

/-! ### Concrete fixtures (used by witnesses and counterexamples) -/

/-- The reference GUID bytes `10 E7 D4 17 4D 62 78 49 90 0B 85 49 CB 75 36 99`. -/
def refBytes : List Nat :=
  [16, 231, 212, 23, 77, 98, 120, 73, 144, 11, 133, 73, 203, 117, 54, 153]

/-- An entry carrying the reference 16-byte objectGUID. -/
def refGUIDEntry : Entry := ⟨none, some [⟨"objectGUID", [refBytes]⟩], none⟩

/-- A typical configuration: default base and `scope: sub, sizeLimit: 0`. -/
def adEx : ADConfig := ⟨"dc=domain,dc=local", ⟨some "sub", none, some 0, none⟩⟩

/-- Directory behaviour: bind succeeds, search matches nothing. -/
def wNoMatch : LdapWorld := ⟨none, Except.ok []⟩

/-- A complete user entry as the directory would return it. -/
def userEntry : Entry :=
  ⟨some ⟨.arr ["CN=Group1,OU=Test,DC=domain,DC=com"], some "Test User",
     some "+1 12312312324", some "test@domain.com", none, none, none, none⟩,
   some [⟨"objectGUID", [refBytes]⟩], some "CN=Test User,DC=domain,DC=com"⟩

/-- Directory behaviour: bind succeeds, search matches one record. -/
def wOneMatch : LdapWorld := ⟨none, Except.ok [userEntry]⟩

/-- A directory bind rejection. -/
def bindRejection : JSError :=
  ⟨"InvalidCredentialsError", "",
   some "80090308: LdapErr: DSID-0C09030B, comment: AcceptSecurityContext error, data 52e, v893"⟩

/-- Directory behaviour: bind fails. -/
def wBindFail : LdapWorld := ⟨some bindRejection, Except.ok []⟩

/-- A search/transport error event. -/
def searchFault : JSError := ⟨"OperationsError", "operations error", none⟩

/-- Directory behaviour: bind succeeds, search errors. -/
def wSearchFail : LdapWorld := ⟨none, Except.error searchFault⟩

/-! ### Claim C8 -/

/-- Claim C8: `resolveBindError` returns "Unknown Auth Error" exactly when
the error's name is not the invalid-credentials kind or its `lde_message`
diagnostic is absent (JS-falsy: missing or empty); otherwise
"Account is locked out" exactly when the diagnostic contains the
substring "775"; otherwise "Invalid username or password"; and it
returns no other strings. -/
theorem claim_C8_bind_error_classification (e : JSError) :
    (resolveBindError e = "Unknown Auth Error" ↔
      (e.name ≠ "InvalidCredentialsError" ∨ e.lde_message = none ∨ e.lde_message = some ""))
    ∧ (resolveBindError e = "Account is locked out" ↔
      (e.name = "InvalidCredentialsError" ∧
        ∃ s, e.lde_message = some s ∧ s ≠ "" ∧ contains775 s.data = true))
    ∧ (resolveBindError e = "Invalid username or password" ↔
      (e.name = "InvalidCredentialsError" ∧
        ∃ s, e.lde_message = some s ∧ s ≠ "" ∧ contains775 s.data = false))
    ∧ (resolveBindError e = "Unknown Auth Error" ∨
       resolveBindError e = "Account is locked out" ∨
       resolveBindError e = "Invalid username or password") := by
  obtain ⟨n, msg, lde⟩ := e
  by_cases hn : n = "InvalidCredentialsError"
  · subst hn
    match lde with
    | none =>
      have hres : resolveBindError ⟨"InvalidCredentialsError", msg, none⟩ = "Unknown Auth Error" := by
        simp [resolveBindError, jsFalsyStr]
      rw [hres]
      refine ⟨by simp, ?_, ?_, Or.inl rfl⟩
      · constructor
        · intro h; exact absurd h (by decide)
        · rintro ⟨-, s, hs, -⟩; exact absurd hs (by simp)
      · constructor
        · intro h; exact absurd h (by decide)
        · rintro ⟨-, s, hs, -⟩; exact absurd hs (by simp)
    | some s =>
      by_cases hs : s = ""
      · subst hs
        have hres : resolveBindError ⟨"InvalidCredentialsError", msg, some ""⟩ = "Unknown Auth Error" := by
          have he : ("" : String).isEmpty = true := rfl
          simp [resolveBindError, jsFalsyStr, he]
        rw [hres]
        refine ⟨by simp, ?_, ?_, Or.inl rfl⟩
        · constructor
          · intro h; exact absurd h (by decide)
          · rintro ⟨-, t, ht, ht', -⟩
            rw [Option.some_inj] at ht
            exact absurd ht.symm ht'
        · constructor
          · intro h; exact absurd h (by decide)
          · rintro ⟨-, t, ht, ht', -⟩
            rw [Option.some_inj] at ht
            exact absurd ht.symm ht'
      · have hfalsy : jsFalsyStr (some s) = false := by
          simp only [jsFalsyStr]
          rw [Bool.eq_false_iff]
          intro hh
          exact hs ((String.isEmpty_iff s).mp hh)
        by_cases h7 : contains775 s.data = true
        · have hres : resolveBindError ⟨"InvalidCredentialsError", msg, some s⟩ = "Account is locked out" := by
            simp [resolveBindError, hfalsy, h7]
          rw [hres]
          refine ⟨?_, ?_, ?_, Or.inr (Or.inl rfl)⟩
          · constructor
            · intro h; exact absurd h (by decide)
            · rintro (h | h | h)
              · exact absurd rfl h
              · exact absurd h (by simp)
              · rw [Option.some_inj] at h; exact absurd h hs
          · exact ⟨fun _ => ⟨rfl, s, rfl, hs, h7⟩, fun _ => rfl⟩
          · constructor
            · intro h; exact absurd h (by decide)
            · rintro ⟨-, t, ht, -, h7'⟩
              rw [Option.some_inj] at ht
              subst ht
              rw [h7] at h7'
              exact absurd h7' (by simp)
        · rw [Bool.not_eq_true] at h7
          have hres : resolveBindError ⟨"InvalidCredentialsError", msg, some s⟩ = "Invalid username or password" := by
            simp [resolveBindError, hfalsy, h7]
          rw [hres]
          refine ⟨?_, ?_, ?_, Or.inr (Or.inr rfl)⟩
          · constructor
            · intro h; exact absurd h (by decide)
            · rintro (h | h | h)
              · exact absurd rfl h
              · exact absurd h (by simp)
              · rw [Option.some_inj] at h; exact absurd h hs
          · constructor
            · intro h; exact absurd h (by decide)
            · rintro ⟨-, t, ht, -, h7'⟩
              rw [Option.some_inj] at ht
              subst ht
              rw [h7] at h7'
              exact absurd h7' (by simp)
          · exact ⟨fun _ => ⟨rfl, s, rfl, hs, h7⟩, fun _ => rfl⟩
  · have hres : resolveBindError ⟨n, msg, lde⟩ = "Unknown Auth Error" := by
      unfold resolveBindError
      rw [if_pos (Or.inl hn)]
    rw [hres]
    refine ⟨⟨fun _ => Or.inl hn, fun _ => rfl⟩, ?_, ?_, Or.inl rfl⟩
    · constructor
      · intro h; exact absurd h (by decide)
      · rintro ⟨h, -⟩; exact absurd h hn
    · constructor
      · intro h; exact absurd h (by decide)
      · rintro ⟨h, -⟩; exact absurd h hn

/-- Witness for C8 at concrete inputs: a credential error whose
diagnostic contains "775" classifies as a lockout. -/
theorem claim_C8_witness :
    resolveBindError ⟨"InvalidCredentialsError", "", some "data 775, v893"⟩ = "Account is locked out" :=
  (claim_C8_bind_error_classification ⟨"InvalidCredentialsError", "", some "data 775, v893"⟩).2.1.mpr
    ⟨rfl, "data 775, v893", rfl, by decide, by decide⟩

/-! ### Claim C2 -/

/-- Counterexample to C2: with a successful bind and a search matching
zero records, `loginUser` settles with the success shape
(`success: true, entry: undefined`), not a failure shape. -/
theorem claim_C2_counterexample :
    (loginUser adEx (.str "test@domain.local") (.str "pw") .undef SearchOptions.empty wNoMatch).1
      = .returned (.success none)
    ∧ ∀ m err,
      (loginUser adEx (.str "test@domain.local") (.str "pw") .undef SearchOptions.empty wNoMatch).1
        ≠ .returned (.failure m err) := by
  refine ⟨rfl, ?_⟩
  intro m err h
  rw [show (loginUser adEx (.str "test@domain.local") (.str "pw") .undef SearchOptions.empty wNoMatch).1
      = .returned (.success none) from rfl] at h
  simp at h

/-- Claim C2 (amended): for every `loginUser` call where the bind
succeeds and the search returns zero records, the operation returns the
success shape with an absent entry (`success: true, entry: undefined`),
never a failure shape and never a raised exception. -/
theorem claim_C2_zero_records_success_shape (ad : ADConfig) (u p : String) (cb : JSArg)
    (cs : SearchOptions) (w : LdapWorld)
    (hbind : w.bindError = none) (hsearch : w.searchOutcome = .ok []) :
    (loginUser ad (.str u) (.str p) cb cs w).1 = .returned (.success none) := by
  simp [loginUser, hbind, hsearch]

/-- Witness for the amended C2 at a concrete call. -/
theorem claim_C2_witness :
    (loginUser adEx (.str "test@domain.local") (.str "pw") .undef SearchOptions.empty wNoMatch).1
      = .returned (.success none) :=
  claim_C2_zero_records_success_shape adEx "test@domain.local" "pw" .undef
    SearchOptions.empty wNoMatch rfl rfl

/-! ### Claim C6 -/

/-- Counterexample to C6: a non-string password makes `loginUser`
RETURN a failure result object (caught by its own `try/catch`), not
raise an error past its boundary; no bind or search is attempted. -/
theorem claim_C6_counterexample :
    loginUser adEx (.str "test@domain.local") .nonString .undef SearchOptions.empty wNoMatch
      = (.returned (.failure "Invalid username or password" credTypeError), [])
    ∧ ∀ e,
      (loginUser adEx (.str "test@domain.local") .nonString .undef SearchOptions.empty wNoMatch).1
        ≠ .raised e := by
  refine ⟨rfl, ?_⟩
  intro e h
  rw [show (loginUser adEx (.str "test@domain.local") .nonString .undef SearchOptions.empty wNoMatch).1
      = .returned (.failure "Invalid username or password" credTypeError) from rfl] at h
  simp at h

/-- Claim C6 (amended): a non-string username or password makes every
public operation fail before any network interaction (the client-call
trace is empty: no bind, no search), and the failure is caught by the
operation's own `try/catch` and returned as a failure result (success
flag false), not raised past the boundary. -/
theorem claim_C6_nonstring_fails_fast (ad : ADConfig) (username password : Cred)
    (cb flag : JSArg) (cs : SearchOptions) (w : LdapWorld)
    (h : username = .nonString ∨ password = .nonString) :
    (∃ m err, loginUser ad username password cb cs w = (.returned (.failure m err), []))
    ∧ (∃ m err, getAllGroups ad username password cb flag w = (.returned (.failure m err), []))
    ∧ (∃ m err, getAllUsers ad username password cb flag w = (.returned (.failure m err), [])) := by
  rcases h with h | h
  · subst h
    cases password with
    | str s => exact ⟨⟨_, _, rfl⟩, ⟨_, _, rfl⟩, ⟨_, _, rfl⟩⟩
    | nonString => exact ⟨⟨_, _, rfl⟩, ⟨_, _, rfl⟩, ⟨_, _, rfl⟩⟩
  · subst h
    cases username with
    | str s => exact ⟨⟨_, _, rfl⟩, ⟨_, _, rfl⟩, ⟨_, _, rfl⟩⟩
    | nonString => exact ⟨⟨_, _, rfl⟩, ⟨_, _, rfl⟩, ⟨_, _, rfl⟩⟩

/-- Witness for the amended C6 at a concrete call. -/
theorem claim_C6_witness :
    (∃ m err, loginUser adEx (.str "test@domain.local") .nonString .undef SearchOptions.empty
        wNoMatch = (.returned (.failure m err), []))
    ∧ (∃ m err, getAllGroups adEx (.str "test@domain.local") .nonString .undef .undef wNoMatch
        = (.returned (.failure m err), []))
    ∧ (∃ m err, getAllUsers adEx (.str "test@domain.local") .nonString .undef .undef wNoMatch
        = (.returned (.failure m err), [])) :=
  claim_C6_nonstring_fails_fast adEx (.str "test@domain.local") .nonString .undef .undef
    SearchOptions.empty wNoMatch (Or.inr rfl)

/-! ### Claim C5 -/

/-- A caller override that carries a scope key in addition to a filter. -/
def overrideWithScope : SearchOptions := ⟨some "base", some "(cn=custom)", none, none⟩

/-- Counterexample to C5: with an override carrying `scope: "base"`,
the search `loginUser` performs uses the override's scope, not the
configured `scope: "sub"` — the override replaces every option it
names, not only the filter. -/
theorem claim_C5_counterexample :
    adEx.searchOptions.scope = some "sub"
    ∧ (loginUser adEx (.str "test@domain.local") (.str "pw") .undef overrideWithScope wNoMatch).2
      = [.bindCall, .searchCall adEx.base ⟨some "base", some "(cn=custom)", some 0, none⟩]
    ∧ (some "base" : Option String) ≠ adEx.searchOptions.scope := by
  refine ⟨rfl, rfl, ?_⟩
  intro h
  rw [show adEx.searchOptions.scope = some "sub" from rfl] at h
  simp at h

/-- Claim C5 (amended): the caller-supplied search override is spread
last, so it replaces every search option it names (filter, scope, size
limit alike); options it does not name come from the held
Configuration, the filter defaulting to the computed identity filter. -/
theorem claim_C5_override_spread_last (ad : ADConfig) (u p : String) (cb : JSArg)
    (cs : SearchOptions) (w : LdapWorld) (hbind : w.bindError = none) :
    ∃ opts, (loginUser ad (.str u) (.str p) cb cs w).2
        = [.bindCall, .searchCall (searchBase ad cb) opts]
      ∧ (∀ f, cs.filter = some f → opts.filter = some f)
      ∧ (cs.filter = none → opts.filter = some (defaultLoginFilter (detectLogonType u)
          (if detectLogonType u = "sAMAccountName" then cleanSama u else u)))
      ∧ (cs.scope = none → opts.scope = ad.searchOptions.scope)
      ∧ (∀ sc, cs.scope = some sc → opts.scope = some sc)
      ∧ (cs.sizeLimit = none → opts.sizeLimit = ad.searchOptions.sizeLimit)
      ∧ (∀ n, cs.sizeLimit = some n → opts.sizeLimit = some n) := by
  refine ⟨loginUserSearch ad (detectLogonType u)
    (if detectLogonType u = "sAMAccountName" then cleanSama u else u) cs, ?_, ?_, ?_, ?_, ?_, ?_, ?_⟩
  · cases hs : w.searchOutcome with
    | error e => simp [loginUser, hbind, hs]
    | ok records => simp [loginUser, hbind, hs]
  · intro f hf
    simp [loginUserSearch, SearchOptions.spread, hf]
  · intro hf
    simp [loginUserSearch, SearchOptions.spread, SearchOptions.withFilter, hf]
  · intro hsc
    simp [loginUserSearch, SearchOptions.spread, SearchOptions.withFilter, hsc]
  · intro sc hsc
    simp [loginUserSearch, SearchOptions.spread, hsc]
  · intro hsz
    simp [loginUserSearch, SearchOptions.spread, SearchOptions.withFilter, hsz]
  · intro n hsz
    simp [loginUserSearch, SearchOptions.spread, hsz]

/-- Witness for the amended C5 at a concrete call. -/
theorem claim_C5_witness :
    ∃ opts, (loginUser adEx (.str "test@domain.local") (.str "pw") .undef overrideWithScope
        wNoMatch).2 = [.bindCall, .searchCall (searchBase adEx .undef) opts]
      ∧ (∀ f, overrideWithScope.filter = some f → opts.filter = some f)
      ∧ (overrideWithScope.filter = none → opts.filter = some (defaultLoginFilter
          (detectLogonType "test@domain.local")
          (if detectLogonType "test@domain.local" = "sAMAccountName" then
            cleanSama "test@domain.local" else "test@domain.local")))
      ∧ (overrideWithScope.scope = none → opts.scope = adEx.searchOptions.scope)
      ∧ (∀ sc, overrideWithScope.scope = some sc → opts.scope = some sc)
      ∧ (overrideWithScope.sizeLimit = none → opts.sizeLimit = adEx.searchOptions.sizeLimit)
      ∧ (∀ n, overrideWithScope.sizeLimit = some n → opts.sizeLimit = some n) :=
  claim_C5_override_spread_last adEx "test@domain.local" "pw" .undef overrideWithScope
    wNoMatch rfl

/-! ### Claim C9 -/

/-- Claim C9: when the base-override argument of `getAllGroups` or
`getAllUsers` is a boolean and the detailed/formatted flag argument is
omitted (`undefined`), the boolean is reinterpreted as that flag and the
default Configuration base is used for the search: the performed search
targets `ad.base`, `getAllGroups` requests the attribute set selected by
the boolean, and on an empty result the payload shape follows the
boolean. -/
theorem claim_C9_bool_base_compat_shim (ad : ADConfig) (u p : String) (b : Bool)
    (w : LdapWorld) (hbind : w.bindError = none) :
    ((getAllGroups ad (.str u) (.str p) (.boolV b) .undef w).2
        = [.bindCall, .searchCall ad.base
            (ad.searchOptions.withFilterAttrs "(objectCategory=group)" (groupsAttributes b))])
    ∧ (w.searchOutcome = .ok [] →
        (getAllGroups ad (.str u) (.str p) (.boolV b) .undef w).1
          = .returned (.success (if b then .detailed [] else .names [])))
    ∧ ((getAllUsers ad (.str u) (.str p) (.boolV b) .undef w).2
        = [.bindCall, .searchCall ad.base
            (ad.searchOptions.withFilter "(&(objectClass=user)(objectCategory=person))")])
    ∧ (w.searchOutcome = .ok [] →
        (getAllUsers ad (.str u) (.str p) (.boolV b) .undef w).1
          = .returned (.success (if b then .formatted [] else .raw []))) := by
  have hgn0 : groupNames [] = .ok [] := rfl
  have hgd0 : getDetails [] = .ok [] := rfl
  have hfu0 : formatUsers [] = .ok [] := rfl
  refine ⟨?_, ?_, ?_, ?_⟩
  · cases hs : w.searchOutcome with
    | error e =>
      cases b <;> simp [getAllGroups, hbind, hs, compatFlag, jsTruthy, searchBase]
    | ok records =>
      cases b with
      | false =>
        cases hn : groupNames records <;>
          simp [getAllGroups, hbind, hs, compatFlag, jsTruthy, searchBase, hn]
      | true =>
        cases hd : getDetails records <;>
          simp [getAllGroups, hbind, hs, compatFlag, jsTruthy, searchBase, hd]
  · intro hs
    cases b <;>
      simp [getAllGroups, hbind, hs, compatFlag, jsTruthy, hgn0, hgd0]
  · cases hs : w.searchOutcome with
    | error e =>
      cases b <;> simp [getAllUsers, hbind, hs, compatFlag, jsTruthy, searchBase]
    | ok records =>
      cases b with
      | false => simp [getAllUsers, hbind, hs, compatFlag, jsTruthy, searchBase]
      | true =>
        cases hd : formatUsers records <;>
          simp [getAllUsers, hbind, hs, compatFlag, jsTruthy, searchBase, hd]
  · intro hs
    cases b <;>
      simp [getAllUsers, hbind, hs, compatFlag, jsTruthy, hfu0]

/-- Witness for C9 at a concrete call. -/
theorem claim_C9_witness :
    ((getAllGroups adEx (.str "test@domain.local") (.str "pw") (.boolV true) .undef wNoMatch).2
        = [.bindCall, .searchCall adEx.base
            (adEx.searchOptions.withFilterAttrs "(objectCategory=group)" (groupsAttributes true))])
    ∧ (wNoMatch.searchOutcome = .ok [] →
        (getAllGroups adEx (.str "test@domain.local") (.str "pw") (.boolV true) .undef wNoMatch).1
          = .returned (.success (if true then .detailed [] else .names [])))
    ∧ ((getAllUsers adEx (.str "test@domain.local") (.str "pw") (.boolV true) .undef wNoMatch).2
        = [.bindCall, .searchCall adEx.base
            (adEx.searchOptions.withFilter "(&(objectClass=user)(objectCategory=person))")])
    ∧ (wNoMatch.searchOutcome = .ok [] →
        (getAllUsers adEx (.str "test@domain.local") (.str "pw") (.boolV true) .undef wNoMatch).1
          = .returned (.success (if true then .formatted [] else .raw []))) :=
  claim_C9_bool_base_compat_shim adEx "test@domain.local" "pw" true wNoMatch rfl

/-! ### Claim C1 -/

/-- Claim C1 is violated by the code: evaluating the three public
operations on concrete success, bind-failure and search-failure
behaviours shows that no client call trace ever contains an unbind —
the connection is left open on every exit path (only the client `error`
event handler would unbind, and no modelled path emits it). -/
theorem claim_C1_no_unbind_on_any_path :
    ((loginUser adEx (.str "test@domain.local") (.str "pw") .undef SearchOptions.empty
        wOneMatch).2.count .unbindCall = 0
      ∧ (loginUser adEx (.str "test@domain.local") (.str "pw") .undef SearchOptions.empty
        wBindFail).2.count .unbindCall = 0
      ∧ (loginUser adEx (.str "test@domain.local") (.str "pw") .undef SearchOptions.empty
        wSearchFail).2.count .unbindCall = 0)
    ∧ ((getAllGroups adEx (.str "test@domain.local") (.str "pw") .undef .undef
        wOneMatch).2.count .unbindCall = 0
      ∧ (getAllGroups adEx (.str "test@domain.local") (.str "pw") .undef .undef
        wBindFail).2.count .unbindCall = 0
      ∧ (getAllGroups adEx (.str "test@domain.local") (.str "pw") .undef .undef
        wSearchFail).2.count .unbindCall = 0)
    ∧ ((getAllUsers adEx (.str "test@domain.local") (.str "pw") .undef .undef
        wOneMatch).2.count .unbindCall = 0
      ∧ (getAllUsers adEx (.str "test@domain.local") (.str "pw") .undef .undef
        wBindFail).2.count .unbindCall = 0
      ∧ (getAllUsers adEx (.str "test@domain.local") (.str "pw") .undef .undef
        wSearchFail).2.count .unbindCall = 0) := by
  refine ⟨⟨?_, ?_, ?_⟩, ⟨?_, ?_, ?_⟩, ⟨?_, ?_, ?_⟩⟩ <;> rfl

/-! ### Claim C10 -/

/-- Claim C10: on a record whose `memberOf` is an array of strings,
`resolveGroups` never throws and returns a list of exactly the same
length; a position whose element's leading component (the text before
its first comma) contains no `CN=` holds an absent value (`undefined`),
rather than being dropped or raising. -/
theorem claim_C10_array_branch_total (entry : Entry) (obj : EntryObject)
    (groups : List String) (hobj : entry.object = some obj)
    (hmem : obj.memberOf = .arr groups) :
    ∃ r, resolveGroups entry = .ok r ∧ r.length = groups.length ∧
      ∀ i (hi : i < groups.length),
        containsCN ((splitOnChar ',' (groups.get ⟨i, hi⟩).data).headD []) = false →
        r.get? i = some none := by
  refine ⟨groups.map (fun group =>
    ((splitOnCN ((splitOnChar ',' group.data).headD [])).get? 1).map String.mk), ?_, ?_, ?_⟩
  · simp [resolveGroups, hobj, hmem]
  · simp
  · intro i hi hcn
    rw [List.get?_eq_getElem?, List.getElem?_map,
      List.getElem?_eq_getElem (by simpa using hi)]
    have hdrop : (fun group => ((splitOnCN ((splitOnChar ',' group.data).headD [])).get? 1).map
        String.mk) (groups.get ⟨i, hi⟩) = none := by
      show ((splitOnCN ((splitOnChar ',' (groups.get ⟨i, hi⟩).data).headD [])).get? 1).map
        String.mk = none
      rw [splitOnCN_of_not_contains _ hcn]
      rfl
    exact congrArg some hdrop

/-- Witness for C10 at a concrete record: a membership whose leading
component has no `CN=` yields an absent position. -/
theorem claim_C10_witness :
    ∃ r, resolveGroups ⟨some ⟨.arr ["OU=Test,DC=domain,DC=com"], none, none, none, none, none,
        none, none⟩, none, none⟩ = .ok r
      ∧ r.length = (["OU=Test,DC=domain,DC=com"] : List String).length
      ∧ ∀ i (hi : i < (["OU=Test,DC=domain,DC=com"] : List String).length),
          containsCN ((splitOnChar ','
            ((["OU=Test,DC=domain,DC=com"] : List String).get ⟨i, hi⟩).data).headD []) = false →
          r.get? i = some none :=
  claim_C10_array_branch_total _ _ _ rfl rfl

/-! ### Claim C3 -/

theorem isOkE_bind_pure {α β ε : Type} (x : Except ε α) (g : α → β) :
    isOkE (x >>= fun a => Except.ok (g a)) = isOkE x := by
  cases x <;> rfl

/-- Every index the permutation groups touch is below 16. -/
theorem guidFormat_indexes_lt : ∀ part ∈ guidFormat, ∀ i ∈ part, i < 16 := by decide

/-- For an entry whose objectGUID attribute carries a byte buffer,
`resolveGUID` succeeds exactly when the buffer has at least 16 bytes. -/
theorem resolveGUID_isOk_iff_len (e : Entry) (attrs : List LdapAttribute)
    (attr : LdapAttribute) (buf : List Nat) (h1 : e.attributes = some attrs)
    (h2 : attrs.find? (fun a => a.type == "objectGUID") = some attr)
    (h3 : attr.buffers.head? = some buf) :
    isOkE (resolveGUID e) = decide (16 ≤ buf.length) := by
  unfold resolveGUID
  simp only [h1, h2, h3]
  rw [isOkE_bind_pure]
  by_cases hlen : 16 ≤ buf.length
  · rw [decide_eq_true hlen]
    apply (exceptMapM_isOk_iff _ _).mpr
    intro part hpart
    rw [isOkE_bind_pure]
    apply (exceptMapM_isOk_iff _ _).mpr
    intro i hi
    have hilt : i < buf.length :=
      lt_of_lt_of_le (guidFormat_indexes_lt part hpart i hi) hlen
    obtain ⟨v, hv⟩ := Option.isSome_iff_exists.mp ((isSome_get?_iff buf i).mpr hilt)
    simp only [hv]
    rfl
  · rw [decide_eq_false hlen]
    cases hok : isOkE (guidFormat.mapM fun part =>
        (part.mapM fun byte =>
          match buf.get? byte with
          | none => Except.error (⟨"TypeError", "Cannot read properties of undefined (reading toString)", none⟩ : JSError)
          | some b => Except.ok (formatGUIDByte b)) >>= fun stringPart =>
        Except.ok (String.join stringPart)) with
    | false => rfl
    | true =>
      exfalso
      have hall := (exceptMapM_isOk_iff _ _).mp hok
      have h5 := hall [10, 11, 12, 13, 14, 15] (by decide)
      rw [isOkE_bind_pure] at h5
      have h15 := ((exceptMapM_isOk_iff _ _).mp h5) 15 (by decide)
      cases hq : buf.get? 15 with
      | some v =>
        have : 15 < buf.length := (isSome_get?_iff buf 15).mp (by rw [hq]; rfl)
        omega
      | none =>
        rw [hq] at h15
        exact absurd h15 (by simp [isOkE])

/-- Counterexample to C3: an objectGUID buffer of 17 bytes is NOT an
error — `resolveGUID` returns the string formatted from the first 16
bytes. -/
theorem claim_C3_counterexample :
    (refBytes ++ [0]).length = 17
    ∧ resolveGUID ⟨none, some [⟨"objectGUID", [refBytes ++ [0]]⟩], none⟩
        = .ok "17d4e710-624d-4978-900b-8549cb753699" :=
  ⟨rfl, rfl⟩

/-- Claim C3 (amended): `resolveGUID` fails exactly when the record's
`attributes` field is absent or not a sequence, or no attribute of type
"objectGUID" exists, or that attribute carries no byte buffer, or its
raw byte length is BELOW 16; with 16 or more bytes it succeeds (using
the first 16 bytes), so over-long buffers are not rejected. -/
theorem claim_C3_guid_error_cases (e : Entry) :
    (e.attributes = none →
      resolveGUID e = .error ⟨"Error", "Attributes must be an array", none⟩)
    ∧ (∀ attrs, e.attributes = some attrs →
        attrs.find? (fun a => a.type == "objectGUID") = none →
        resolveGUID e = .error ⟨"TypeError", "Cannot read properties of undefined (reading buffers)", none⟩)
    ∧ (∀ attrs attr, e.attributes = some attrs →
        attrs.find? (fun a => a.type == "objectGUID") = some attr →
        attr.buffers.head? = none →
        resolveGUID e = .error ⟨"TypeError", "Cannot read properties of undefined", none⟩)
    ∧ (∀ attrs attr buf, e.attributes = some attrs →
        attrs.find? (fun a => a.type == "objectGUID") = some attr →
        attr.buffers.head? = some buf →
        (isOkE (resolveGUID e) = true ↔ 16 ≤ buf.length)) := by
  refine ⟨?_, ?_, ?_, ?_⟩
  · intro h1
    unfold resolveGUID
    simp only [h1]
  · intro attrs h1 h2
    unfold resolveGUID
    simp only [h1, h2]
  · intro attrs attr h1 h2 h3
    unfold resolveGUID
    simp only [h1, h2, h3]
  · intro attrs attr buf h1 h2 h3
    rw [resolveGUID_isOk_iff_len e attrs attr buf h1 h2 h3]
    simp

/-- Witness for the amended C3 at concrete records: the 16-byte
reference record succeeds, the record with no attributes errors. -/
theorem claim_C3_witness :
    (isOkE (resolveGUID refGUIDEntry) = true ↔ 16 ≤ refBytes.length)
    ∧ resolveGUID ⟨none, none, none⟩ = .error ⟨"Error", "Attributes must be an array", none⟩ :=
  ⟨(claim_C3_guid_error_cases refGUIDEntry).2.2.2 [⟨"objectGUID", [refBytes]⟩]
      ⟨"objectGUID", [refBytes]⟩ refBytes rfl rfl rfl,
   (claim_C3_guid_error_cases ⟨none, none, none⟩).1 rfl⟩

/-! ### Claim C7 -/

set_option maxRecDepth 4000 in
/-- The source's byte formatting (conditional zero left-pad of JS
`toString(16)`) agrees, on byte values, with the spec's two-digit
zero-padded hex encoding. -/
theorem formatGUIDByte_eq_specHexByte (b : Nat) (hb : b < 256) :
    formatGUIDByte b = specHexByte b := by
  have h : ∀ x : Fin 256, formatGUIDByte x.val = specHexByte x.val := by decide
  exact h ⟨b, hb⟩

/-- Claim C7: on a record carrying a 16-byte objectGUID value,
`resolveGUID` returns exactly the spec's algorithm: bytes reordered by
the fixed index groups `[3,2,1,0] [5,4] [7,6] [8,9] [10..15]`, each
hex-encoded as two zero-padded digits, concatenated within groups,
groups joined with `-`. -/
theorem claim_C7_guid_algorithm (e : Entry) (attrs : List LdapAttribute)
    (attr : LdapAttribute) (buf : List Nat) (h1 : e.attributes = some attrs)
    (h2 : attrs.find? (fun a => a.type == "objectGUID") = some attr)
    (h3 : attr.buffers.head? = some buf) (hlen : buf.length = 16)
    (hbytes : ∀ b ∈ buf, b < 256) :
    resolveGUID e = .ok (specFormatGUID buf) := by
  unfold resolveGUID
  simp only [h1, h2, h3]
  have houter : guidFormat.mapM (fun part =>
      (part.mapM fun byte =>
        match buf.get? byte with
        | none => Except.error (⟨"TypeError", "Cannot read properties of undefined (reading toString)", none⟩ : JSError)
        | some b => Except.ok (formatGUIDByte b)) >>= fun stringPart =>
      Except.ok (String.join stringPart))
      = .ok (guidFormat.map (fun part =>
          String.join (part.map (fun i => specHexByte (buf.getD i 0))))) := by
    apply exceptMapM_ok_of_forall
    intro part hpart
    have hinner : part.mapM (fun byte =>
        match buf.get? byte with
        | none => Except.error (⟨"TypeError", "Cannot read properties of undefined (reading toString)", none⟩ : JSError)
        | some b => Except.ok (formatGUIDByte b))
        = .ok (part.map (fun i => specHexByte (buf.getD i 0))) := by
      apply exceptMapM_ok_of_forall
      intro i hi
      have hilt : i < buf.length := by
        rw [hlen]; exact guidFormat_indexes_lt part hpart i hi
      obtain ⟨v, hv⟩ := Option.isSome_iff_exists.mp ((isSome_get?_iff buf i).mpr hilt)
      have hgd : buf.getD i 0 = v := by
        rw [List.getD_eq_getElem?_getD, ← List.get?_eq_getElem?, hv]; rfl
      simp only [hv, hgd]
      rw [formatGUIDByte_eq_specHexByte v (hbytes v (List.get?_mem hv))]
    rw [hinner, except_bind_ok]
  rw [houter, except_bind_ok]
  rfl

/-- Witness for C7: the reference bytes
`10 E7 D4 17 4D 62 78 49 90 0B 85 49 CB 75 36 99` yield exactly
`17d4e710-624d-4978-900b-8549cb753699`. -/
theorem claim_C7_witness :
    resolveGUID refGUIDEntry = .ok "17d4e710-624d-4978-900b-8549cb753699" := by
  have h := claim_C7_guid_algorithm refGUIDEntry [⟨"objectGUID", [refBytes]⟩]
    ⟨"objectGUID", [refBytes]⟩ refBytes rfl rfl rfl (by decide) (by decide)
  rw [h]
  rfl

/-! ### Claim C4 -/

/-- On a component of the form `CN=` followed by text with no further
`CN=`, the source's `split('CN=')[1]` yields exactly that text. -/
theorem splitOnCN_get1 (r : List Char) (h2 : containsCN r = false) :
    (splitOnCN ('C' :: 'N' :: '=' :: r)).get? 1 = some r := by
  show (splitOnSeq3 'C' 'N' '=' ('C' :: 'N' :: '=' :: r)).get? 1 = some r
  rw [splitOnSeq3_here, splitOnSeq3_of_not_contains _ _ _ r h2]
  rfl

/-- Claim C4: `resolveGroups` on a record with an object mapping follows
the spec's policy: `memberOf` absent → empty; a single string → split
the whole string on commas, keep only components containing `CN=`, strip
the `CN=` head of each (so several names can come from one flattened
string); a sequence → per element only the text before the first comma,
stripped of `CN=`; any other shape → empty, without error. Stated for
well-formed distinguished names: every relevant `CN=`-bearing component
starts with `CN=` and contains it once. -/
theorem claim_C4_resolveGroups_policy (entry : Entry) (obj : EntryObject)
    (hobj : entry.object = some obj) :
    (obj.memberOf = .undef → resolveGroups entry = .ok [])
    ∧ (∀ s, obj.memberOf = .str s →
        (∀ comp ∈ splitOnChar ',' s.data, containsCN comp = true →
          comp.take 3 = ['C', 'N', '='] ∧ containsCN (comp.drop 3) = false) →
        resolveGroups entry = .ok ((specGroupsOfString s).map some))
    ∧ (∀ groups, obj.memberOf = .arr groups →
        (∀ g ∈ groups,
          ((splitOnChar ',' g.data).headD []).take 3 = ['C', 'N', '='] ∧
          containsCN (((splitOnChar ',' g.data).headD []).drop 3) = false) →
        resolveGroups entry = .ok ((specGroupsOfArray groups).map some))
    ∧ (obj.memberOf = .other → resolveGroups entry = .ok []) := by
  refine ⟨?_, ?_, ?_, ?_⟩
  · intro h; simp [resolveGroups, hobj, h]
  · intro s hs hwf
    simp only [resolveGroups, hobj, hs]
    refine congrArg Except.ok ?_
    unfold specGroupsOfString
    rw [List.map_map]
    apply List.map_congr_left
    intro c hc
    obtain ⟨hcmem, hccn⟩ := List.mem_filter.mp hc
    obtain ⟨h1, h2⟩ := hwf c hcmem hccn
    have hshape := eq_cn_cons_of_take3 c h1
    simp only [Function.comp_apply]
    unfold specStripCN
    rw [if_pos h1]
    conv_lhs => rw [hshape]
    rw [splitOnCN_get1 _ h2]
    rfl
  · intro groups hmem hwf
    simp only [resolveGroups, hobj, hmem]
    refine congrArg Except.ok ?_
    unfold specGroupsOfArray
    rw [List.map_map]
    apply List.map_congr_left
    intro g hg
    obtain ⟨h1, h2⟩ := hwf g hg
    have hshape := eq_cn_cons_of_take3 _ h1
    simp only [Function.comp_apply]
    unfold specStripCN
    rw [if_pos h1]
    conv_lhs => rw [hshape]
    rw [splitOnCN_get1 _ h2]
    rfl
  · intro h; simp [resolveGroups, hobj, h]

/-- Witness for C4 at concrete records: the flattened string
`CN=Group1,CN=Group2,DC=domain,DC=com` yields two names through the
string branch, and a two-element array yields its two leading names. -/
theorem claim_C4_witness :
    resolveGroups ⟨some ⟨.str "CN=Group1,CN=Group2,DC=domain,DC=com", none, none, none, none,
        none, none, none⟩, none, none⟩ = .ok [some "Group1", some "Group2"]
    ∧ resolveGroups ⟨some ⟨.arr ["CN=Group1,OU=Test,DC=domain,DC=com",
        "CN=Group2,OU=Test,OU=Test2,DC=domain,DC=com"], none, none, none, none,
        none, none, none⟩, none, none⟩ = .ok [some "Group1", some "Group2"] := by
  constructor
  · have h := ((claim_C4_resolveGroups_policy
      ⟨some ⟨.str "CN=Group1,CN=Group2,DC=domain,DC=com", none, none, none, none,
        none, none, none⟩, none, none⟩
      ⟨.str "CN=Group1,CN=Group2,DC=domain,DC=com", none, none, none, none,
        none, none, none⟩ rfl).2.1
      "CN=Group1,CN=Group2,DC=domain,DC=com" rfl (by decide))
    rw [h]
    rfl
  · have h := ((claim_C4_resolveGroups_policy
      ⟨some ⟨.arr ["CN=Group1,OU=Test,DC=domain,DC=com",
        "CN=Group2,OU=Test,OU=Test2,DC=domain,DC=com"], none, none, none, none,
        none, none, none⟩, none, none⟩
      ⟨.arr ["CN=Group1,OU=Test,DC=domain,DC=com",
        "CN=Group2,OU=Test,OU=Test2,DC=domain,DC=com"], none, none, none, none,
        none, none, none⟩ rfl).2.2.1
      ["CN=Group1,OU=Test,DC=domain,DC=com",
       "CN=Group2,OU=Test,OU=Test2,DC=domain,DC=com"] rfl (by decide))
    rw [h]
    rfl

end NodeAdTools
